import Mathlib

/-!
Verification development for the cag-js library (Chunked Augmented Generation).

The definitions below are a shallow embedding of `src/cag.ts` and
`src/utils.ts`.  External collaborators are modelled as parameters:

* the text splitter (`@langchain/textsplitters`) is an arbitrary function
  `String → List String`;
* the model provider (`window.ai.languageModel`) is a deterministic oracle
  `String → Option String`, where `none` means the `prompt` call throws;
* the `destroy` call on a session never fails.

Session objects are identified by a fresh natural-number id drawn from a
counter; the `_ai` field of the class is modelled by `SessState.ai`.
Observable effects (session creation, prompt sending, session release,
entry into one recursive pass) are recorded in a trace of `Event`s.
JavaScript numeric truthiness (`0` is falsy) is modelled by `numTruthy`.
-/

/-- Errors thrown by the embedded code.  `missingTerminationCriterion` is the
"Either iteration_limit or iteration_output_token_limit must be set." error;
`promptFailure` stands for any exception escaping `session.prompt`. -/
inductive GenError where
  | missingTerminationCriterion
  | promptFailure
deriving DecidableEq

/-- Observable events of one generation call. -/
inductive Event where
  | create (sid : Nat)
  | promptSent (sid : Nat) (prompt : String)
  | release (sid : Nat)
  | passStart (iteration : Nat)
deriving DecidableEq

/-- The mutable session-related state of a `CAG` instance: the `_ai` field
(`none` models JavaScript `null`) and the fresh-id counter used to give each
created session a distinct identity. -/
structure SessState where
  ai : Option Nat
  nextId : Nat
deriving DecidableEq

/-- Configuration record, from `CAGConfig` in `src/cag.ts`.  Fields are
integers (JavaScript numbers, potentially negative); the optional fields are
`Option`. -/
structure CAGConfig where
  chunkSize : Int
  chunkOverlap : Int
  iteration_limit : Option Int
  iteration_output_token_limit : Option Int
deriving DecidableEq

/-- JavaScript truthiness of an optional number: `undefined` and `0` are
falsy, every other number is truthy. -/
def numTruthy : Option Int → Bool
  | none => false
  | some n => n != 0

/-- Embedding of `validateConfig` from `src/cag.ts` (lines 70-91).  Each
`throw new Error(...)` becomes `Except.error` with the same message; the
`if (config.iteration_limit)` guards are JavaScript truthiness tests. -/
def validateConfig (config : CAGConfig) : Except String Unit :=
  if config.chunkSize < 1 then
    Except.error "chunkSize must be greater than 0"
  else if config.chunkOverlap < 0 then
    Except.error "chunkOverlap must be greater than or equal to 0"
  else if numTruthy config.iteration_limit && config.iteration_limit.getD 0 < 2 then
    Except.error "iteration_limit must be greater than 1"
  else if numTruthy config.iteration_limit && 100 < config.iteration_limit.getD 0 then
    Except.error "iteration_limit must be less than or equal to 100"
  else if numTruthy config.iteration_output_token_limit &&
      config.iteration_output_token_limit.getD 0 < 1 then
    Except.error "iteration_output_token_limit must be greater than 0"
  else
    Except.ok ()

/-- A constructed `CAG` instance: configuration, prompt template, and the two
external collaborators (splitter and model oracle). -/
structure CAG where
  config : CAGConfig
  prompt_template : String
  splitter : String → List String
  model : String → Option String

/-- Embedding of the `CAG` constructor (lines 55-62): it stores the fields and
runs `validateConfig`; a validation failure propagates, so no instance is
produced. -/
def CAG.construct (config : CAGConfig) (tpl : String)
    (splitter : String → List String) (model : String → Option String) :
    Except String CAG :=
  match validateConfig config with
  | Except.error e => Except.error e
  | Except.ok _ => Except.ok ⟨config, tpl, splitter, model⟩

/-- Does the first list occur as a prefix of the second? -/
def startsWithList : List Char → List Char → Bool
  | [], _ => true
  | _ :: _, [] => false
  | p :: ps, c :: cs => p == c && startsWithList ps cs

/-- The dollar character `$`. -/
def dollarChar : Char := Char.ofNat 36

/-- The backquote character. -/
def backquoteChar : Char := Char.ofNat 96

/-- The single-quote character. -/
def singleQuoteChar : Char := Char.ofNat 39

/-- ECMAScript `GetSubstitution` for a string (non-regexp) search value:
expands the replacement-string patterns recognised when there are no capture
groups.  `$$` produces `$`, `$&` produces the matched text, `$` followed by a
backquote produces the text before the match, `$` followed by a single quote
produces the text after the match; any other character sequence is copied
literally. -/
def getSubstitution (matched before after : List Char) : List Char → List Char
  | [] => []
  | [c1] => [c1]
  | c1 :: c2 :: rest2 =>
    if c1 = dollarChar then
      if c2 = dollarChar then dollarChar :: getSubstitution matched before after rest2
      else if c2 = '&' then matched ++ getSubstitution matched before after rest2
      else if c2 = backquoteChar then before ++ getSubstitution matched before after rest2
      else if c2 = singleQuoteChar then after ++ getSubstitution matched before after rest2
      else c1 :: c2 :: getSubstitution matched before after rest2
    else c1 :: getSubstitution matched before after (c2 :: rest2)

/-- Core loop of JavaScript `String.prototype.replace` with a string search
value: find the first occurrence of `pat`, expand `repl` against it, and keep
the rest of the string unchanged.  `seen` is the reversed already-scanned
prefix. -/
def jsReplaceAux (pat repl : List Char) (seen : List Char) : List Char → List Char
  | [] =>
    if pat = [] then seen.reverse ++ getSubstitution pat seen.reverse [] repl
    else seen.reverse
  | c :: cs =>
    if startsWithList pat (c :: cs) then
      seen.reverse ++
        getSubstitution pat seen.reverse ((c :: cs).drop pat.length) repl ++
        (c :: cs).drop pat.length
    else jsReplaceAux pat repl (c :: seen) cs

/-- JavaScript `s.replace(pat, repl)` for a string search value: replaces only
the first occurrence, applying replacement-pattern expansion to `repl`. -/
def jsStringReplace (s pat repl : String) : String :=
  String.mk (jsReplaceAux pat.data repl.data [] s.data)

/-- Embedding of `prepare_prompt` from `src/utils.ts`:
`template.replace('\x7btext\x7d', text)`. -/
def prepare_prompt (template text : String) : String :=
  jsStringReplace template "\x7btext\x7d" text

/-- Number of starting positions at which `pat` occurs in the list. -/
def countOccs (pat : List Char) : List Char → Nat
  | [] => if startsWithList pat [] then 1 else 0
  | c :: cs => (if startsWithList pat (c :: cs) then 1 else 0) + countOccs pat cs

/-- Per-chunk loop of `generate_sequential` (lines 131-139).  For each chunk
the code creates a session (overwriting `_ai`), sends the prompt and, only on
success, pushes the response and destroys the session.  There is no
`try`/`finally`: an exception from `prompt` aborts the whole loop with the
session neither destroyed nor the `_ai` reference cleared; on success `_ai`
keeps pointing at the destroyed session until the next chunk overwrites it. -/
def seqChunkLoop (tpl : String) (model : String → Option String) :
    List String → SessState → Except GenError (List String) × List Event × SessState
  | [], st => (Except.ok [], [], st)
  | chunk :: rest, st =>
    match model (prepare_prompt tpl chunk) with
    | some response =>
      let t := seqChunkLoop tpl model rest ⟨some st.nextId, st.nextId + 1⟩
      (Except.map (fun outs => response :: outs) t.1,
        Event.create st.nextId :: Event.promptSent st.nextId (prepare_prompt tpl chunk) ::
          Event.release st.nextId :: t.2.1,
        t.2.2)
    | none =>
      (Except.error GenError.promptFailure,
        [Event.create st.nextId, Event.promptSent st.nextId (prepare_prompt tpl chunk)],
        ⟨some st.nextId, st.nextId + 1⟩)

/-- Embedding of `generate_sequential` (lines 126-142): split, run the chunk
loop, and join the collected outputs with the fixed `"<br>"` separator. -/
def generate_sequential (cag : CAG) (input : String) (st : SessState) :
    Except GenError String × List Event × SessState :=
  let t := seqChunkLoop cag.prompt_template cag.model (cag.splitter input) st
  (Except.map (fun outs => String.intercalate "<br>" outs) t.1, t.2.1, t.2.2)

/-- Per-chunk loop of `generate_recursive` (lines 180-196).  The body runs in
`try`/`catch`/`finally`: on success the response is pushed and the session
destroyed, and since `_ai` is still set, the `finally` block destroys it a
second time and clears the reference; on a prompt failure the error is caught
and the `finally` block destroys the session once and clears the reference.
Either way the loop continues with the next chunk and `_ai = null`. -/
def recChunkLoop (tpl : String) (model : String → Option String) :
    List String → SessState → List String × List Event × SessState
  | [], st => ([], [], st)
  | chunk :: rest, st =>
    match model (prepare_prompt tpl chunk) with
    | some response =>
      let t := recChunkLoop tpl model rest ⟨none, st.nextId + 1⟩
      (response :: t.1,
        Event.create st.nextId :: Event.promptSent st.nextId (prepare_prompt tpl chunk) ::
          Event.release st.nextId :: Event.release st.nextId :: t.2.1,
        t.2.2)
    | none =>
      let t := recChunkLoop tpl model rest ⟨none, st.nextId + 1⟩
      (t.1,
        Event.create st.nextId :: Event.promptSent st.nextId (prepare_prompt tpl chunk) ::
          Event.release st.nextId :: t.2.1,
        t.2.2)

/-- Embedding of `generate_recursive` (lines 153-215), with an explicit fuel
parameter to make the (possibly unbounded) recursion total: `none` means the
fuel ran out before the code returned.  The checks mirror the source order:
the missing-termination-criterion throw, the iteration cap, one chunk pass,
the output-length convergence check, then the recursive call with
`iterationCount + 1`.  A `passStart` event marks entry into each pass. -/
def generate_recursive (cag : CAG) :
    Nat → String → Nat → SessState →
      Option (Except GenError String × List Event × SessState)
  | 0, _, _, _ => none
  | fuel + 1, input, iter, st =>
    if !numTruthy cag.config.iteration_limit &&
        !numTruthy cag.config.iteration_output_token_limit then
      some (Except.error GenError.missingTerminationCriterion, [], st)
    else if numTruthy cag.config.iteration_limit &&
        cag.config.iteration_limit.getD 0 ≤ (iter : Int) then
      some (Except.ok input, [], st)
    else
      let t := recChunkLoop cag.prompt_template cag.model (cag.splitter input) st
      let combined := String.intercalate " " t.1
      if numTruthy cag.config.iteration_output_token_limit &&
          (combined.length : Int) ≤ cag.config.iteration_output_token_limit.getD 0 then
        some (Except.ok combined, Event.passStart iter :: t.2.1, t.2.2)
      else
        match generate_recursive cag fuel combined (iter + 1) t.2.2 with
        | none => none
        | some (r, tr, stF) => some (r, Event.passStart iter :: t.2.1 ++ tr, stF)

/-- Iteration numbers of the passes recorded in a trace. -/
def passList (tr : List Event) : List Nat :=
  tr.filterMap fun e =>
    match e with
    | Event.passStart i => some i
    | _ => none

/-- Session ids of the `create` events of a trace, in order. -/
def createIds (tr : List Event) : List Nat :=
  tr.filterMap fun e =>
    match e with
    | Event.create s => some s
    | _ => none

/-- Session ids of the `release` events of a trace, in order. -/
def releaseIds (tr : List Event) : List Nat :=
  tr.filterMap fun e =>
    match e with
    | Event.release s => some s
    | _ => none

/-- Prompts sent in a trace, in order. -/
def promptsOf (tr : List Event) : List String :=
  tr.filterMap fun e =>
    match e with
    | Event.promptSent _ p => some p
    | _ => none

/-- Session id mentioned by an event, if any. -/
def eventSid : Event → Option Nat
  | Event.create s => some s
  | Event.promptSent s _ => some s
  | Event.release s => some s
  | Event.passStart _ => none

/-- The spec's rejection predicate for configurations, read literally:
"fails ... when `chunk_size < 1`; `chunk_overlap < 0`; `iteration_limit`
present and (`< 2` or `> 100`); `iteration_output_token_limit` present and
`< 1`". -/
def specRejects (c : CAGConfig) : Prop :=
  c.chunkSize < 1 ∨ c.chunkOverlap < 0 ∨
    (∃ n : Int, c.iteration_limit = some n ∧ (n < 2 ∨ 100 < n)) ∨
    (∃ n : Int, c.iteration_output_token_limit = some n ∧ n < 1)

/-- The acceptance condition actually implemented by `validateConfig`:
optional fields holding `0` are treated as absent by the truthiness guards. -/
def codeAccepts (c : CAGConfig) : Prop :=
  1 ≤ c.chunkSize ∧ 0 ≤ c.chunkOverlap ∧
    (∀ n : Int, c.iteration_limit = some n → n ≠ 0 → 2 ≤ n ∧ n ≤ 100) ∧
    (∀ n : Int, c.iteration_output_token_limit = some n → n ≠ 0 → 1 ≤ n)

/-- A demonstration instance: `iteration_limit = 2`, no output-length limit,
identity splitter, constant model. -/
def demoCag : CAG :=
  ⟨⟨1, 0, some 2, none⟩, "Summarize: \x7btext\x7d", fun s => [s], fun _ => some "ok"⟩

/-- An instance whose model always fails. -/
def demoCagFailing : CAG :=
  ⟨⟨1, 0, some 2, none⟩, "Summarize: \x7btext\x7d", fun s => [s], fun _ => none⟩

/-- An instance with neither termination criterion configured. -/
def demoCagNoCriterion : CAG :=
  ⟨⟨1, 0, none, none⟩, "Summarize: \x7btext\x7d", fun s => [s], fun _ => some "ok"⟩

/-- An instance with a two-chunk splitter and an echoing model, used for the
sequential-mode witnesses. -/
def demoCagTwoChunks : CAG :=
  ⟨⟨1, 0, some 2, some 5⟩, "Summarize: \x7btext\x7d",
    fun s => [s, s ++ "!"], fun p => some ("R:" ++ p)⟩

theorem numTruthy_none : numTruthy none = false := rfl

theorem numTruthy_some_pos {n : Int} (h : 0 < n) : numTruthy (some n) = true := by
  simp [numTruthy]
  omega

/-- C6: with neither `iteration_limit` nor `iteration_output_token_limit`
configured, `generate_recursive` fails with the missing-termination-criterion
error on every call (any iteration counter, so also on recursive re-entries),
with an empty event trace and unchanged state: no chunking and no model calls
happen first. -/
theorem missing_termination_criterion_error (cag : CAG)
    (h1 : cag.config.iteration_limit = none)
    (h2 : cag.config.iteration_output_token_limit = none)
    (input : String) (iter : Nat) (st : SessState) (fuel : Nat) :
    generate_recursive cag (fuel + 1) input iter st =
      some (Except.error GenError.missingTerminationCriterion, [], st) := by
  simp [generate_recursive, h1, h2, numTruthy]

/-- Witness for C6 at a concrete instance and a non-initial iteration
counter. -/
theorem missing_termination_criterion_witness :
    generate_recursive demoCagNoCriterion 1 "abc" 7 ⟨none, 0⟩ =
      some (Except.error GenError.missingTerminationCriterion, [], ⟨none, 0⟩) :=
  missing_termination_criterion_error demoCagNoCriterion rfl rfl "abc" 7 ⟨none, 0⟩ 0

theorem validateConfig_ok_iff (c : CAGConfig) :
    validateConfig c = Except.ok () ↔ codeAccepts c := by
  obtain ⟨cs, co, il, otl⟩ := c
  cases il <;> cases otl <;>
    simp only [validateConfig, codeAccepts, numTruthy, Option.getD_some, Option.getD_none] <;>
    split_ifs <;>
    simp_all

/-- C2 counterexample: the configuration with `iteration_limit = 0` is
rejected by the claim as written (the field is present and `0 < 2`) yet
`validateConfig` accepts it and the constructor succeeds, because the
JavaScript guard `if (config.iteration_limit)` treats `0` as absent. -/
theorem validateConfig_truthiness_counterexample :
    specRejects ⟨1, 0, some 0, none⟩ ∧
    validateConfig ⟨1, 0, some 0, none⟩ = Except.ok () ∧
    ∃ cag, CAG.construct ⟨1, 0, some 0, none⟩ "t" (fun s => [s]) (fun _ => none) =
      Except.ok cag :=
  ⟨Or.inr (Or.inr (Or.inl ⟨0, rfl, Or.inl (by norm_num)⟩)), rfl, ⟨_, rfl⟩⟩

/-- C2 (amended): `validateConfig` accepts a configuration exactly when
`chunk_size ≥ 1`, `chunk_overlap ≥ 0`, and each optional field is either
absent, zero (treated as absent by the truthiness guard), or within its legal
range (`[2,100]` for `iteration_limit`, `≥ 1` for
`iteration_output_token_limit`); the boundary configurations with
`chunk_size = 1`, `iteration_limit = 2`, `iteration_limit = 100` and
`iteration_output_token_limit = 1` are accepted; and the constructor succeeds
exactly when validation does, so malformed configurations are rejected before
any generation call. -/
theorem validateConfig_characterization :
    (∀ c : CAGConfig, validateConfig c = Except.ok () ↔ codeAccepts c)
    ∧ validateConfig ⟨1, 0, none, none⟩ = Except.ok ()
    ∧ validateConfig ⟨1, 0, some 2, some 1⟩ = Except.ok ()
    ∧ validateConfig ⟨1, 0, some 100, some 1⟩ = Except.ok ()
    ∧ (∀ c tpl sp m, (∃ cag, CAG.construct c tpl sp m = Except.ok cag) ↔
        validateConfig c = Except.ok ()) := by
  refine ⟨validateConfig_ok_iff, rfl, rfl, rfl, fun c tpl sp m => ?_⟩
  constructor
  · rintro ⟨cag, h⟩
    unfold CAG.construct at h
    cases hv : validateConfig c with
    | error e => rw [hv] at h; exact absurd h (by simp)
    | ok u => cases u; rfl
  · intro hv
    exact ⟨_, by unfold CAG.construct; rw [hv]⟩

/-- Witness for C2's amended characterization at the boundary
configuration. -/
theorem validateConfig_characterization_witness :
    validateConfig ⟨1, 0, some 2, some 1⟩ = Except.ok () ∧
    codeAccepts ⟨1, 0, some 2, some 1⟩ :=
  ⟨validateConfig_characterization.2.2.1,
    (validateConfig_characterization.1 _).mp validateConfig_characterization.2.2.1⟩


theorem startsWithList_iff_append :
    ∀ (pat s : List Char), startsWithList pat s = true ↔ ∃ t, s = pat ++ t := by
  intro pat
  induction pat with
  | nil => intro s; simp [startsWithList]
  | cons p ps ih =>
    intro s
    cases s with
    | nil => simp [startsWithList]
    | cons c cs =>
      simp only [startsWithList, Bool.and_eq_true, beq_iff_eq, ih, List.cons_append,
        List.cons.injEq]
      constructor
      · rintro ⟨rfl, t, rfl⟩
        exact ⟨t, rfl, rfl⟩
      · rintro ⟨t, rfl, rfl⟩
        exact ⟨rfl, t, rfl⟩

theorem one_le_countOccs_of_startsWith (pat l : List Char)
    (h : startsWithList pat l = true) : 1 ≤ countOccs pat l := by
  cases l with
  | nil => simp [countOccs, h]
  | cons c cs => simp [countOccs, h]

theorem countOccs_cons (pat : List Char) (c : Char) (l : List Char) :
    countOccs pat (c :: l) =
      (if startsWithList pat (c :: l) then 1 else 0) + countOccs pat l := rfl

theorem countOccs_cons_ge (pat : List Char) (c : Char) (l : List Char) :
    countOccs pat l ≤ countOccs pat (c :: l) := by
  rw [countOccs_cons]
  split <;> omega

theorem one_le_countOccs_append (pat post : List Char) :
    ∀ pre : List Char, 1 ≤ countOccs pat (pre ++ pat ++ post) := by
  intro pre
  induction pre with
  | nil =>
    apply one_le_countOccs_of_startsWith
    rw [startsWithList_iff_append]
    exact ⟨post, by simp⟩
  | cons c pre' ih =>
    calc 1 ≤ countOccs pat (pre' ++ pat ++ post) := ih
    _ ≤ countOccs pat (c :: (pre' ++ pat ++ post)) := countOccs_cons_ge pat c _
    _ = countOccs pat ((c :: pre') ++ pat ++ post) := by simp

theorem getSubstitution_no_dollar (matched before after : List Char) :
    ∀ repl : List Char, dollarChar ∉ repl →
      getSubstitution matched before after repl = repl := by
  intro repl
  induction repl with
  | nil => intro _; rfl
  | cons c rest ih =>
    intro h
    have hc : c ≠ dollarChar := fun hc => h (hc ▸ List.mem_cons_self c rest)
    have hrest : dollarChar ∉ rest := fun hm => h (List.mem_cons_of_mem c hm)
    cases rest with
    | nil => rfl
    | cons c2 rest2 =>
      simp only [getSubstitution, if_neg hc]
      rw [ih hrest]

theorem jsReplaceAux_unique_occurrence (pat repl post : List Char) (hpat : pat ≠ []) :
    ∀ (pre seen : List Char), countOccs pat (pre ++ pat ++ post) = 1 →
      jsReplaceAux pat repl seen (pre ++ pat ++ post) =
        seen.reverse ++ pre ++
          getSubstitution pat (seen.reverse ++ pre) post repl ++ post := by
  intro pre
  induction pre with
  | nil =>
    intro seen _
    obtain ⟨p, ps, rfl⟩ : ∃ p ps, pat = p :: ps := by
      cases pat with
      | nil => exact absurd rfl hpat
      | cons p ps => exact ⟨p, ps, rfl⟩
    have hstart : startsWithList (p :: ps) (p :: (ps ++ post)) = true := by
      rw [startsWithList_iff_append]
      exact ⟨post, by simp⟩
    have hdrop : (p :: (ps ++ post)).drop (p :: ps).length = post := by
      simp [ List.drop_left]
    show jsReplaceAux (p :: ps) repl seen (p :: (ps ++ post)) = _
    rw [jsReplaceAux, if_pos hstart, hdrop]
    simp
  | cons c pre' ih =>
    intro seen hcount
    rw [show ((c :: pre') ++ pat ++ post) = c :: (pre' ++ pat ++ post) by simp] at hcount
    rw [countOccs_cons] at hcount
    have hge := one_le_countOccs_append pat post pre'
    have hnostart : ¬ startsWithList pat (c :: (pre' ++ pat ++ post)) = true := by
      intro h'
      rw [if_pos h'] at hcount
      omega
    have hrest : countOccs pat (pre' ++ pat ++ post) = 1 := by
      rw [if_neg hnostart] at hcount
      omega
    show jsReplaceAux pat repl seen (c :: (pre' ++ pat ++ post)) = _
    rw [jsReplaceAux, if_neg hnostart, ih (c :: seen) hrest]
    simp

/-- C8 counterexample: for the template `"A\x7btext\x7dB"` (which contains the
placeholder marker exactly once) and the chunk `"$&"`, the formatted prompt is
not the template with the marker replaced by the chunk's literal text
(`"A$&B"`): JavaScript `String.replace` interprets `$&` in the replacement
string as the matched marker, producing `"A\x7btext\x7dB"`. -/
theorem prepare_prompt_dollar_counterexample :
    countOccs ("\x7btext\x7d".data) ("A\x7btext\x7dB".data) = 1 ∧
    prepare_prompt "A\x7btext\x7dB" "$&" = "A\x7btext\x7dB" ∧
    prepare_prompt "A\x7btext\x7dB" "$&" ≠ "A$&B" :=
  ⟨by decide, rfl, by decide⟩

/-- C8 (amended): for every template containing exactly one placeholder
marker and every chunk containing no dollar character, the formatted prompt
equals the template with the marker replaced by the chunk's literal text —
in particular marker-like substrings inside the chunk are not escaped or
interpreted.  (Chunks containing `$` undergo JavaScript replacement-pattern
expansion instead, as the counterexample shows.) -/
theorem prepare_prompt_substitution (template chunk : String) (pre post : List Char)
    (hdecomp : template.data = pre ++ ("\x7btext\x7d".data) ++ post)
    (huniq : countOccs ("\x7btext\x7d".data) template.data = 1)
    (hnodollar : dollarChar ∉ chunk.data) :
    (prepare_prompt template chunk).data = pre ++ chunk.data ++ post := by
  unfold prepare_prompt jsStringReplace
  rw [hdecomp] at huniq
  rw [hdecomp]
  rw [jsReplaceAux_unique_occurrence _ _ _ (by decide) pre [] huniq]
  simp [getSubstitution_no_dollar _ _ _ _ hnodollar]

/-- Witness for C8's amended theorem: the chunk itself contains a marker-like
substring, which is inserted uninterpreted. -/
theorem prepare_prompt_substitution_witness :
    (prepare_prompt "Summarize: \x7btext\x7d!" "a \x7btext\x7d b").data =
      ("Summarize: ".data ++ "a \x7btext\x7d b".data ++ "!".data) :=
  prepare_prompt_substitution "Summarize: \x7btext\x7d!" "a \x7btext\x7d b"
    ("Summarize: ".data) ("!".data) (by decide) (by decide) (by decide)

theorem recChunkLoop_nil (tpl : String) (model : String → Option String) (st : SessState) :
    recChunkLoop tpl model [] st = ([], [], st) := rfl

theorem recChunkLoop_cons_ok (tpl : String) (model : String → Option String)
    (chunk : String) (rest : List String) (st : SessState) (response : String)
    (h : model (prepare_prompt tpl chunk) = some response) :
    recChunkLoop tpl model (chunk :: rest) st =
      (response :: (recChunkLoop tpl model rest ⟨none, st.nextId + 1⟩).1,
        Event.create st.nextId :: Event.promptSent st.nextId (prepare_prompt tpl chunk) ::
          Event.release st.nextId :: Event.release st.nextId ::
          (recChunkLoop tpl model rest ⟨none, st.nextId + 1⟩).2.1,
        (recChunkLoop tpl model rest ⟨none, st.nextId + 1⟩).2.2) := by
  simp [recChunkLoop, h]

theorem recChunkLoop_cons_fail (tpl : String) (model : String → Option String)
    (chunk : String) (rest : List String) (st : SessState)
    (h : model (prepare_prompt tpl chunk) = none) :
    recChunkLoop tpl model (chunk :: rest) st =
      ((recChunkLoop tpl model rest ⟨none, st.nextId + 1⟩).1,
        Event.create st.nextId :: Event.promptSent st.nextId (prepare_prompt tpl chunk) ::
          Event.release st.nextId ::
          (recChunkLoop tpl model rest ⟨none, st.nextId + 1⟩).2.1,
        (recChunkLoop tpl model rest ⟨none, st.nextId + 1⟩).2.2) := by
  simp [recChunkLoop, h]

theorem passList_nil : passList [] = [] := rfl

theorem passList_cons_create (s : Nat) (tr : List Event) :
    passList (Event.create s :: tr) = passList tr := by
  simp [passList]

theorem passList_cons_promptSent (s : Nat) (p : String) (tr : List Event) :
    passList (Event.promptSent s p :: tr) = passList tr := by
  simp [passList]

theorem passList_cons_release (s : Nat) (tr : List Event) :
    passList (Event.release s :: tr) = passList tr := by
  simp [passList]

theorem passList_cons_passStart (i : Nat) (tr : List Event) :
    passList (Event.passStart i :: tr) = i :: passList tr := by
  simp [passList]

theorem passList_append (tr tr' : List Event) :
    passList (tr ++ tr') = passList tr ++ passList tr' := by
  simp [passList]

theorem recChunkLoop_passList (tpl : String) (model : String → Option String) :
    ∀ (chunks : List String) (st : SessState),
      passList (recChunkLoop tpl model chunks st).2.1 = [] := by
  intro chunks
  induction chunks with
  | nil => intro st; rfl
  | cons c rest ih =>
    intro st
    cases h : model (prepare_prompt tpl c) with
    | some r =>
      rw [recChunkLoop_cons_ok tpl model c rest st r h]
      simp only [passList_cons_create, passList_cons_promptSent, passList_cons_release]
      exact ih _
    | none =>
      rw [recChunkLoop_cons_fail tpl model c rest st h]
      simp only [passList_cons_create, passList_cons_promptSent, passList_cons_release]
      exact ih _

theorem recChunkLoop_sid_ge (tpl : String) (model : String → Option String) :
    ∀ (chunks : List String) (st : SessState) (e : Event),
      e ∈ (recChunkLoop tpl model chunks st).2.1 →
      ∀ s, eventSid e = some s → st.nextId ≤ s := by
  intro chunks
  induction chunks with
  | nil => intro st e he; simp [recChunkLoop_nil] at he
  | cons c rest ih =>
    intro st e he s hs
    cases h : model (prepare_prompt tpl c) with
    | some r =>
      rw [recChunkLoop_cons_ok tpl model c rest st r h] at he
      simp only [List.mem_cons] at he
      rcases he with rfl | rfl | rfl | rfl | he
      · simp [eventSid] at hs; omega
      · simp [eventSid] at hs; omega
      · simp [eventSid] at hs; omega
      · simp [eventSid] at hs; omega
      · have := ih ⟨none, st.nextId + 1⟩ e he s hs
        simp at this
        omega
    | none =>
      rw [recChunkLoop_cons_fail tpl model c rest st h] at he
      simp only [List.mem_cons] at he
      rcases he with rfl | rfl | rfl | he
      · simp [eventSid] at hs; omega
      · simp [eventSid] at hs; omega
      · simp [eventSid] at hs; omega
      · have := ih ⟨none, st.nextId + 1⟩ e he s hs
        simp at this
        omega

theorem recChunkLoop_create_release (tpl : String) (model : String → Option String) :
    ∀ (chunks : List String) (st : SessState) (sid : Nat),
      Event.create sid ∈ (recChunkLoop tpl model chunks st).2.1 →
      Event.release sid ∈ (recChunkLoop tpl model chunks st).2.1 := by
  intro chunks
  induction chunks with
  | nil => intro st sid h; simp [recChunkLoop_nil] at h
  | cons c rest ih =>
    intro st sid h
    cases hm : model (prepare_prompt tpl c) with
    | some r =>
      rw [recChunkLoop_cons_ok tpl model c rest st r hm] at h ⊢
      simp only [List.mem_cons] at h ⊢
      rcases h with h | h | h | h | h
      · exact Or.inr (Or.inr (Or.inl (by injection h with h'; rw [h'])))
      · exact absurd h (by simp)
      · exact absurd h (by simp)
      · exact absurd h (by simp)
      · exact Or.inr (Or.inr (Or.inr (Or.inr (ih _ sid h))))
    | none =>
      rw [recChunkLoop_cons_fail tpl model c rest st hm] at h ⊢
      simp only [List.mem_cons] at h ⊢
      rcases h with h | h | h | h
      · exact Or.inr (Or.inr (Or.inl (by injection h with h'; rw [h'])))
      · exact absurd h (by simp)
      · exact absurd h (by simp)
      · exact Or.inr (Or.inr (Or.inr (ih _ sid h)))

theorem recChunkLoop_ai_none (tpl : String) (model : String → Option String) :
    ∀ (chunks : List String) (st : SessState), st.ai = none →
      ((recChunkLoop tpl model chunks st).2.2).ai = none := by
  intro chunks
  induction chunks with
  | nil => intro st h; simpa [recChunkLoop_nil] using h
  | cons c rest ih =>
    intro st h
    cases hm : model (prepare_prompt tpl c) with
    | some r => rw [recChunkLoop_cons_ok tpl model c rest st r hm]; exact ih _ rfl
    | none => rw [recChunkLoop_cons_fail tpl model c rest st hm]; exact ih _ rfl

theorem recChunkLoop_final_ai (tpl : String) (model : String → Option String)
    (chunks : List String) (st : SessState) (h : chunks ≠ []) :
    ((recChunkLoop tpl model chunks st).2.2).ai = none := by
  cases chunks with
  | nil => exact absurd rfl h
  | cons c rest =>
    cases hm : model (prepare_prompt tpl c) with
    | some r => rw [recChunkLoop_cons_ok tpl model c rest st r hm]; exact recChunkLoop_ai_none tpl model _ _ rfl
    | none => rw [recChunkLoop_cons_fail tpl model c rest st hm]; exact recChunkLoop_ai_none tpl model _ _ rfl

theorem recChunkLoop_count_release_zero (tpl : String) (model : String → Option String)
    (chunks : List String) (st : SessState) (sid : Nat) (h : sid < st.nextId) :
    ((recChunkLoop tpl model chunks st).2.1).count (Event.release sid) = 0 := by
  rw [List.count_eq_zero]
  intro hmem
  have := recChunkLoop_sid_ge tpl model chunks st _ hmem sid rfl
  omega

theorem generate_recursive_no_prompt_failure (cag : CAG) :
    ∀ (fuel : Nat) (input : String) (iter : Nat) (st : SessState)
      (out : Except GenError String × List Event × SessState),
      generate_recursive cag fuel input iter st = some out →
      out.1 ≠ Except.error GenError.promptFailure := by
  intro fuel
  induction fuel with
  | zero => intro input iter st out h; simp [generate_recursive] at h
  | succ fuel ih =>
    intro input iter st out h
    simp only [generate_recursive] at h
    split at h
    · cases h; simp
    · split at h
      · cases h; simp
      · split at h
        · cases h; simp
        · split at h
          · exact absurd h (by simp)
          · rename_i r tr stF heq
            cases h
            have := ih _ _ _ _ heq
            simpa using this

/-- C5: in the recursive-mode chunk loop, a chunk whose model call fails is
caught locally: it contributes nothing to the collected outputs, the loop
continues with the next chunk, the failed chunk's session is released exactly
once (by the `finally` block), and no `generate_recursive` call ever
surfaces a prompt failure — the overall call is not aborted. -/
theorem recursive_failed_chunk_skipped (tpl : String) (model : String → Option String)
    (c : String) (rest : List String) (st : SessState)
    (hfail : model (prepare_prompt tpl c) = none) :
    (recChunkLoop tpl model (c :: rest) st).1 =
        (recChunkLoop tpl model rest ⟨none, st.nextId + 1⟩).1 ∧
    (recChunkLoop tpl model (c :: rest) st).2.1 =
        Event.create st.nextId :: Event.promptSent st.nextId (prepare_prompt tpl c) ::
          Event.release st.nextId ::
          (recChunkLoop tpl model rest ⟨none, st.nextId + 1⟩).2.1 ∧
    ((recChunkLoop tpl model (c :: rest) st).2.1).count (Event.release st.nextId) = 1 ∧
    (∀ (cag : CAG) (fuel : Nat) (input : String) (iter : Nat) (st' : SessState)
        (out : Except GenError String × List Event × SessState),
        generate_recursive cag fuel input iter st' = some out →
        out.1 ≠ Except.error GenError.promptFailure) := by
  refine ⟨?_, ?_, ?_, fun cag fuel input iter st' out h =>
    generate_recursive_no_prompt_failure cag fuel input iter st' out h⟩
  · rw [recChunkLoop_cons_fail tpl model c rest st hfail]
  · rw [recChunkLoop_cons_fail tpl model c rest st hfail]
  · rw [recChunkLoop_cons_fail tpl model c rest st hfail]
    have hz := recChunkLoop_count_release_zero tpl model rest ⟨none, st.nextId + 1⟩
      st.nextId (by simp)
    simp [List.count_cons, hz]

/-- Witness for C5: the middle chunk's prompt fails; its output is skipped,
its session (id 1) is released once, and the other chunks are processed. -/
theorem recursive_failed_chunk_skipped_witness :
    (recChunkLoop "\x7btext\x7d" (fun p => if p = "b" then none else some p)
        ["b", "c"] ⟨none, 0⟩).1 =
      (recChunkLoop "\x7btext\x7d" (fun p => if p = "b" then none else some p)
        ["c"] ⟨none, 1⟩).1 ∧
    ((recChunkLoop "\x7btext\x7d" (fun p => if p = "b" then none else some p)
        ["b", "c"] ⟨none, 0⟩).2.1).count (Event.release 0) = 1 := by
  have h := recursive_failed_chunk_skipped "\x7btext\x7d"
    (fun p => if p = "b" then none else some p) "b" ["c"] ⟨none, 0⟩ (by decide)
  exact ⟨h.1, h.2.2.1⟩

/-- C10: in the recursive-mode chunk loop, a chunk processed successfully has
its session released twice — once at the end of the `try` block and once more
by the `finally` block, which only then clears the `_ai` reference — so the
trace for such a chunk contains exactly two `release` events for its session
id, and the loop continues with the reference cleared.  Correctness therefore
relies on `destroy` tolerating a second call. -/
theorem recursive_success_double_release (tpl : String) (model : String → Option String)
    (c : String) (rest : List String) (st : SessState) (r : String)
    (hok : model (prepare_prompt tpl c) = some r) :
    (recChunkLoop tpl model (c :: rest) st).1 =
        r :: (recChunkLoop tpl model rest ⟨none, st.nextId + 1⟩).1 ∧
    (recChunkLoop tpl model (c :: rest) st).2.1 =
        Event.create st.nextId :: Event.promptSent st.nextId (prepare_prompt tpl c) ::
          Event.release st.nextId :: Event.release st.nextId ::
          (recChunkLoop tpl model rest ⟨none, st.nextId + 1⟩).2.1 ∧
    ((recChunkLoop tpl model (c :: rest) st).2.1).count (Event.release st.nextId) = 2 ∧
    ((recChunkLoop tpl model (c :: rest) st).2.2).ai = none := by
  refine ⟨?_, ?_, ?_, ?_⟩
  · rw [recChunkLoop_cons_ok tpl model c rest st r hok]
  · rw [recChunkLoop_cons_ok tpl model c rest st r hok]
  · rw [recChunkLoop_cons_ok tpl model c rest st r hok]
    have hz := recChunkLoop_count_release_zero tpl model rest ⟨none, st.nextId + 1⟩
      st.nextId (by simp)
    simp [List.count_cons, hz]
  · exact recChunkLoop_final_ai tpl model (c :: rest) st (by simp)

/-- Witness for C10: one successful chunk yields the trace
create, promptSent, release, release on session id 0. -/
theorem recursive_success_double_release_witness :
    (recChunkLoop "\x7btext\x7d" (fun p => some p) ["a"] ⟨none, 0⟩).2.1 =
      [Event.create 0, Event.promptSent 0 "a", Event.release 0, Event.release 0] ∧
    ((recChunkLoop "\x7btext\x7d" (fun p => some p) ["a"] ⟨none, 0⟩).2.1).count
      (Event.release 0) = 2 := by
  have h := recursive_success_double_release "\x7btext\x7d" (fun p => some p)
    "a" [] ⟨none, 0⟩ "a" (by decide)
  refine ⟨?_, h.2.2.1⟩
  rw [h.2.1]
  decide

theorem generate_recursive_cap_return (cag : CAG) (L : Int)
    (hL : cag.config.iteration_limit = some L) (hpos : 0 < L)
    (input : String) (iter : Nat) (st : SessState) (fuel : Nat)
    (hiter : L ≤ (iter : Int)) :
    generate_recursive cag (fuel + 1) input iter st = some (Except.ok input, [], st) := by
  have htr : numTruthy cag.config.iteration_limit = true := by
    rw [hL]; exact numTruthy_some_pos hpos
  simp only [generate_recursive]
  rw [if_neg (by simp [htr]), if_pos (by simp [hL, numTruthy]; omega)]

theorem generate_recursive_pass_bound (cag : CAG) (L : Int)
    (hL : cag.config.iteration_limit = some L) (hpos : 0 < L) :
    ∀ (fuel : Nat) (input : String) (iter : Nat) (st : SessState),
      (L - (iter : Int)).toNat < fuel →
      ∃ r tr stF, generate_recursive cag fuel input iter st = some (r, tr, stF) ∧
        passList tr = List.range' iter (passList tr).length ∧
        (passList tr).length ≤ (L - (iter : Int)).toNat ∧
        (numTruthy cag.config.iteration_output_token_limit = false →
          (passList tr).length = (L - (iter : Int)).toNat) := by
  have htr : numTruthy cag.config.iteration_limit = true := by
    rw [hL]; exact numTruthy_some_pos hpos
  intro fuel
  induction fuel with
  | zero => intro input iter st h; omega
  | succ fuel ih =>
    intro input iter st h
    by_cases hcap : L ≤ (iter : Int)
    · refine ⟨Except.ok input, [], st,
        generate_recursive_cap_return cag L hL hpos input iter st fuel hcap, ?_, ?_, ?_⟩
      · rfl
      · simp [passList_nil]
      · intro _
        simp only [passList_nil, List.length_nil]
        omega
    · push_neg at hcap
      have hne : ¬ (numTruthy cag.config.iteration_limit = false ∧
          numTruthy cag.config.iteration_output_token_limit = false) := by
        simp [htr]
      by_cases hconv : numTruthy cag.config.iteration_output_token_limit = true ∧
          ((String.intercalate " "
            (recChunkLoop cag.prompt_template cag.model (cag.splitter input) st).1).length : Int) ≤
            cag.config.iteration_output_token_limit.getD 0
      · refine ⟨Except.ok (String.intercalate " "
            (recChunkLoop cag.prompt_template cag.model (cag.splitter input) st).1),
          Event.passStart iter ::
            (recChunkLoop cag.prompt_template cag.model (cag.splitter input) st).2.1,
          (recChunkLoop cag.prompt_template cag.model (cag.splitter input) st).2.2,
          ?_, ?_, ?_, ?_⟩
        · simp only [generate_recursive]
          rw [if_neg (by simp [htr]), if_neg (by simp [hL, numTruthy]; omega),
            if_pos (by simp [hconv.1]; exact_mod_cast hconv.2)]
        · rw [passList_cons_passStart, recChunkLoop_passList]
          rfl
        · rw [passList_cons_passStart, recChunkLoop_passList]
          simp
          omega
        · intro hfalse
          rw [hfalse] at hconv
          exact absurd hconv.1 (by simp)
      · have hlt : (L - ((iter + 1 : Nat) : Int)).toNat < fuel := by
          push_cast
          omega
        obtain ⟨r, tr', stF, heq, hrange, hle, hexact⟩ := ih
          (String.intercalate " "
            (recChunkLoop cag.prompt_template cag.model (cag.splitter input) st).1)
          (iter + 1)
          (recChunkLoop cag.prompt_template cag.model (cag.splitter input) st).2.2 hlt
        refine ⟨r, Event.passStart iter ::
            (recChunkLoop cag.prompt_template cag.model (cag.splitter input) st).2.1 ++ tr',
          stF, ?_, ?_, ?_, ?_⟩
        · simp only [generate_recursive]
          rw [if_neg (by simp [htr]), if_neg (by simp [hL, numTruthy]; omega)]
          have hcnot : ¬ (numTruthy cag.config.iteration_output_token_limit = true ∧
              ((String.intercalate " "
                (recChunkLoop cag.prompt_template cag.model (cag.splitter input) st).1).length : Int) ≤
                cag.config.iteration_output_token_limit.getD 0) := hconv
          rw [if_neg (by
            intro hb
            apply hcnot
            constructor
            · exact (Bool.and_eq_true _ _).mp hb |>.1
            · have := (Bool.and_eq_true _ _).mp hb |>.2
              exact_mod_cast of_decide_eq_true this)]
          rw [heq]
        · rw [passList_append, passList_cons_passStart, recChunkLoop_passList,
            List.singleton_append, List.length_cons, List.range'_succ, ← hrange]
        · rw [passList_append, passList_cons_passStart, recChunkLoop_passList,
            List.singleton_append, List.length_cons]
          push_cast at hle ⊢
          omega
        · intro hfalse
          have := hexact hfalse
          rw [passList_append, passList_cons_passStart, recChunkLoop_passList,
            List.singleton_append, List.length_cons]
          push_cast at this ⊢
          omega

/-- C1: with `iteration_limit` set (to a truthy value `L`, in particular any
value in its documented range `[2,100]`), (a) a call entered with
`iteration ≥ L` returns the input unchanged with no events and unchanged
state; (b) every call terminates within fuel `L - iteration + 1`, the
iterations of the passes it performs are consecutive from the entry
iteration (each recursive re-entry increments the counter by exactly one),
and at most `L - iteration` chunk-processing passes occur; (c) when
`iteration_output_token_limit` is not set (no length convergence), exactly
`L - iteration` passes occur — with `L = 2` and entry at iteration `0`,
exactly two passes before the cap return. -/
theorem iteration_cap_limits_passes (cag : CAG) (L : Int)
    (hL : cag.config.iteration_limit = some L) (hpos : 0 < L) :
    (∀ (input : String) (iter : Nat) (st : SessState) (fuel : Nat),
      L ≤ (iter : Int) →
      generate_recursive cag (fuel + 1) input iter st = some (Except.ok input, [], st))
    ∧ (∀ (fuel : Nat) (input : String) (iter : Nat) (st : SessState),
      (L - (iter : Int)).toNat < fuel →
      ∃ r tr stF, generate_recursive cag fuel input iter st = some (r, tr, stF) ∧
        passList tr = List.range' iter (passList tr).length ∧
        (passList tr).length ≤ (L - (iter : Int)).toNat ∧
        (numTruthy cag.config.iteration_output_token_limit = false →
          (passList tr).length = (L - (iter : Int)).toNat)) :=
  ⟨fun input iter st fuel hiter =>
      generate_recursive_cap_return cag L hL hpos input iter st fuel hiter,
    generate_recursive_pass_bound cag L hL hpos⟩

/-- Witness for C1 on `demoCag` (`iteration_limit = 2`, no output-length
limit): a call at iteration 5 returns its input untouched, and a call at
iteration 0 performs exactly two passes, numbered 0 and 1. -/
theorem iteration_cap_limits_passes_witness :
    generate_recursive demoCag 1 "hello" 5 ⟨none, 0⟩ =
      some (Except.ok "hello", [], ⟨none, 0⟩) ∧
    ∃ r tr stF, generate_recursive demoCag 3 "hello" 0 ⟨none, 0⟩ = some (r, tr, stF) ∧
      passList tr = [0, 1] := by
  constructor
  · exact (iteration_cap_limits_passes demoCag 2 rfl (by norm_num)).1 "hello" 5
      ⟨none, 0⟩ 0 (by norm_num)
  · obtain ⟨r, tr, stF, h1, h2, h3, h4⟩ :=
      (iteration_cap_limits_passes demoCag 2 rfl (by norm_num)).2 3 "hello" 0
        ⟨none, 0⟩ (by norm_num)
    refine ⟨r, tr, stF, h1, ?_⟩
    have hlen : (passList tr).length = 2 := by
      have := h4 rfl
      simpa using this
    rw [h2, hlen]
    rfl

/-- C4: whenever `iteration_output_token_limit` is set (to a value `T ≥ 1`,
per its documented type "optional positive integer") and the combined output
of the pass executed by a call has length at most `T`, that call returns the
combined output immediately: the result carries exactly this one pass's
trace (a single `passStart` event), independent of the available fuel — no
recursive call is made.  Instantiated at `iter = 0`, this is the
"first pass converges ⇒ exactly one pass" statement. -/
theorem output_limit_single_pass (cag : CAG) (T : Int)
    (outs : List String) (tr : List Event) (st1 : SessState)
    (input : String) (iter : Nat) (st : SessState) (fuel : Nat)
    (hT : cag.config.iteration_output_token_limit = some T) (hT1 : 1 ≤ T)
    (hcap : numTruthy cag.config.iteration_limit = true →
      (iter : Int) < cag.config.iteration_limit.getD 0)
    (hloop : recChunkLoop cag.prompt_template cag.model (cag.splitter input) st =
      (outs, tr, st1))
    (hconv : ((String.intercalate " " outs).length : Int) ≤ T) :
    generate_recursive cag (fuel + 1) input iter st =
      some (Except.ok (String.intercalate " " outs), Event.passStart iter :: tr, st1) ∧
    (passList (Event.passStart iter :: tr)).length = 1 := by
  have htr : numTruthy cag.config.iteration_output_token_limit = true := by
    rw [hT]; exact numTruthy_some_pos (by omega)
  constructor
  · simp only [generate_recursive]
    rw [if_neg (by simp [htr]), if_neg ?hc, hloop]
    case hc =>
      simp only [Bool.and_eq_true, decide_eq_true_eq, not_and]
      intro hb
      have := hcap hb
      omega
    rw [if_pos (by rw [hT] at htr ⊢; simp [htr]; exact_mod_cast hconv)]
  · rw [passList_cons_passStart]
    have : passList tr = [] := by
      have := recChunkLoop_passList cag.prompt_template cag.model (cag.splitter input) st
      rw [hloop] at this
      exact this
    rw [this]
    rfl

/-- Witness for C4 on a concrete instance: the single chunk's response has
length 3 ≤ 100, so the call returns after one pass. -/
theorem output_limit_single_pass_witness :
    generate_recursive
        ⟨⟨1, 0, none, some 100⟩, "\x7btext\x7d", fun s => [s], fun p => some p⟩
        5 "abc" 0 ⟨none, 0⟩ =
      some (Except.ok "abc",
        [Event.passStart 0, Event.create 0, Event.promptSent 0 "abc",
          Event.release 0, Event.release 0],
        ⟨none, 1⟩) := by
  have h := output_limit_single_pass
    ⟨⟨1, 0, none, some 100⟩, "\x7btext\x7d", fun s => [s], fun p => some p⟩
    100 ["abc"]
    [Event.create 0, Event.promptSent 0 "abc", Event.release 0, Event.release 0]
    ⟨none, 1⟩ "abc" 0 ⟨none, 0⟩ 4 rfl (by norm_num)
    (by intro hb; exact absurd hb (by decide)) (by decide) (by decide)
  exact h.1

theorem createIds_cons_create (s : Nat) (tr : List Event) :
    createIds (Event.create s :: tr) = s :: createIds tr := by
  simp [createIds]

theorem createIds_cons_promptSent (s : Nat) (p : String) (tr : List Event) :
    createIds (Event.promptSent s p :: tr) = createIds tr := by
  simp [createIds]

theorem createIds_cons_release (s : Nat) (tr : List Event) :
    createIds (Event.release s :: tr) = createIds tr := by
  simp [createIds]

theorem releaseIds_cons_create (s : Nat) (tr : List Event) :
    releaseIds (Event.create s :: tr) = releaseIds tr := by
  simp [releaseIds]

theorem releaseIds_cons_promptSent (s : Nat) (p : String) (tr : List Event) :
    releaseIds (Event.promptSent s p :: tr) = releaseIds tr := by
  simp [releaseIds]

theorem releaseIds_cons_release (s : Nat) (tr : List Event) :
    releaseIds (Event.release s :: tr) = s :: releaseIds tr := by
  simp [releaseIds]

theorem promptsOf_cons_create (s : Nat) (tr : List Event) :
    promptsOf (Event.create s :: tr) = promptsOf tr := by
  simp [promptsOf]

theorem promptsOf_cons_promptSent (s : Nat) (p : String) (tr : List Event) :
    promptsOf (Event.promptSent s p :: tr) = p :: promptsOf tr := by
  simp [promptsOf]

theorem promptsOf_cons_release (s : Nat) (tr : List Event) :
    promptsOf (Event.release s :: tr) = promptsOf tr := by
  simp [promptsOf]

theorem seqChunkLoop_nil (tpl : String) (model : String → Option String) (st : SessState) :
    seqChunkLoop tpl model [] st = (Except.ok [], [], st) := rfl

theorem seqChunkLoop_cons_ok (tpl : String) (model : String → Option String)
    (chunk : String) (rest : List String) (st : SessState) (response : String)
    (h : model (prepare_prompt tpl chunk) = some response) :
    seqChunkLoop tpl model (chunk :: rest) st =
      (Except.map (fun outs => response :: outs)
          (seqChunkLoop tpl model rest ⟨some st.nextId, st.nextId + 1⟩).1,
        Event.create st.nextId :: Event.promptSent st.nextId (prepare_prompt tpl chunk) ::
          Event.release st.nextId ::
          (seqChunkLoop tpl model rest ⟨some st.nextId, st.nextId + 1⟩).2.1,
        (seqChunkLoop tpl model rest ⟨some st.nextId, st.nextId + 1⟩).2.2) := by
  simp [seqChunkLoop, h]

theorem seqChunkLoop_cons_fail (tpl : String) (model : String → Option String)
    (chunk : String) (rest : List String) (st : SessState)
    (h : model (prepare_prompt tpl chunk) = none) :
    seqChunkLoop tpl model (chunk :: rest) st =
      (Except.error GenError.promptFailure,
        [Event.create st.nextId, Event.promptSent st.nextId (prepare_prompt tpl chunk)],
        ⟨some st.nextId, st.nextId + 1⟩) := by
  simp [seqChunkLoop, h]

theorem seqChunkLoop_all_ok (tpl : String) (model : String → Option String)
    (resp : String → String) :
    ∀ (chunks : List String) (st : SessState),
      (∀ c ∈ chunks, model (prepare_prompt tpl c) = some (resp c)) →
      (seqChunkLoop tpl model chunks st).1 = Except.ok (chunks.map resp) ∧
      createIds (seqChunkLoop tpl model chunks st).2.1 =
        List.range' st.nextId chunks.length ∧
      releaseIds (seqChunkLoop tpl model chunks st).2.1 =
        List.range' st.nextId chunks.length ∧
      promptsOf (seqChunkLoop tpl model chunks st).2.1 =
        chunks.map (prepare_prompt tpl) := by
  intro chunks
  induction chunks with
  | nil => intro st h; exact ⟨rfl, rfl, rfl, rfl⟩
  | cons c rest ih =>
    intro st h
    have hc : model (prepare_prompt tpl c) = some (resp c) := h c (List.mem_cons_self c rest)
    have hrest := ih ⟨some st.nextId, st.nextId + 1⟩
      (fun x hx => h x (List.mem_cons_of_mem c hx))
    rw [seqChunkLoop_cons_ok tpl model c rest st (resp c) hc]
    refine ⟨?_, ?_, ?_, ?_⟩
    · rw [hrest.1]
      rfl
    · rw [createIds_cons_create, createIds_cons_promptSent, createIds_cons_release,
        hrest.2.1]
      simp [List.range'_succ]
    · rw [releaseIds_cons_create, releaseIds_cons_promptSent, releaseIds_cons_release,
        hrest.2.2.1]
      simp [List.range'_succ]
    · rw [promptsOf_cons_create, promptsOf_cons_promptSent, promptsOf_cons_release,
        hrest.2.2.2]
      rfl

/-- C3: when the model answers every chunk's prompt (chunk `c` receiving
response `resp c`), `generate_sequential` returns the chunk responses joined
by the fixed `"<br>"` separator in input chunk order, and the trace shows one
fresh session per chunk: the created session ids are the `N` consecutive
fresh ids in chunk order, the released ids are the same list (N creations,
N releases, one release per creation), no id is ever reused, and the prompts
sent are precisely the formatted chunk prompts in order. -/
theorem sequential_order_and_sessions (cag : CAG) (input : String) (st : SessState)
    (resp : String → String)
    (hall : ∀ c ∈ cag.splitter input,
      cag.model (prepare_prompt cag.prompt_template c) = some (resp c)) :
    (generate_sequential cag input st).1 =
      Except.ok (String.intercalate "<br>" ((cag.splitter input).map resp)) ∧
    createIds (generate_sequential cag input st).2.1 =
      List.range' st.nextId (cag.splitter input).length ∧
    releaseIds (generate_sequential cag input st).2.1 =
      List.range' st.nextId (cag.splitter input).length ∧
    (createIds (generate_sequential cag input st).2.1).Nodup ∧
    promptsOf (generate_sequential cag input st).2.1 =
      (cag.splitter input).map (prepare_prompt cag.prompt_template) := by
  have h := seqChunkLoop_all_ok cag.prompt_template cag.model resp
    (cag.splitter input) st hall
  simp only [generate_sequential]
  refine ⟨?_, h.2.1, h.2.2.1, ?_, h.2.2.2⟩
  · rw [h.1]
    rfl
  · rw [h.2.1]
    exact List.nodup_range' st.nextId (cag.splitter input).length

/-- Witness for C3 on a two-chunk splitter: result, session ids and prompts
are checked concretely. -/
theorem sequential_order_and_sessions_witness :
    (generate_sequential demoCagTwoChunks "x" ⟨none, 0⟩).1 =
      Except.ok "R:Summarize: x<br>R:Summarize: x!" ∧
    createIds (generate_sequential demoCagTwoChunks "x" ⟨none, 0⟩).2.1 = [0, 1] ∧
    releaseIds (generate_sequential demoCagTwoChunks "x" ⟨none, 0⟩).2.1 = [0, 1] := by
  have h := sequential_order_and_sessions demoCagTwoChunks "x" ⟨none, 0⟩
    (fun c => "R:" ++ prepare_prompt demoCagTwoChunks.prompt_template c)
    (by intro c hc; rfl)
  exact ⟨by rw [h.1]; rfl, by rw [h.2.1]; rfl, by rw [h.2.2.1]; rfl⟩

theorem generate_recursive_create_release (cag : CAG) :
    ∀ (fuel : Nat) (input : String) (iter : Nat) (st : SessState)
      (r : Except GenError String) (tr : List Event) (stF : SessState),
      generate_recursive cag fuel input iter st = some (r, tr, stF) →
      ∀ sid, Event.create sid ∈ tr → Event.release sid ∈ tr := by
  intro fuel
  induction fuel with
  | zero => intro input iter st r tr stF h; simp [generate_recursive] at h
  | succ fuel ih =>
    intro input iter st r tr stF h
    simp only [generate_recursive] at h
    split at h
    · cases h
      intro sid hmem
      simp at hmem
    · split at h
      · cases h
        intro sid hmem
        simp at hmem
      · split at h
        · cases h
          intro sid hmem
          rcases List.mem_cons.mp hmem with hmem | hmem
          · exact absurd hmem (by simp)
          · exact List.mem_cons_of_mem _
              (recChunkLoop_create_release cag.prompt_template cag.model _ _ sid hmem)
        · split at h
          · exact absurd h (by simp)
          · rename_i r' tr' stF' heq
            cases h
            intro sid hmem
            rcases List.mem_append.mp hmem with hmem | hmem
            · rcases List.mem_cons.mp hmem with hmem | hmem
              · exact absurd hmem (by simp)
              · exact List.mem_append_left _ (List.mem_cons_of_mem _
                  (recChunkLoop_create_release cag.prompt_template cag.model _ _ sid hmem))
            · exact List.mem_append_right _ (ih _ _ _ _ _ _ heq sid hmem)

/-- C7 counterexample: in sequential mode, when the single chunk's prompt
fails, the call errors with a session created (id 0) but never released, and
the `_ai` field still references it — the code has no `try`/`finally` in
`generate_sequential`, so the claimed unconditional release does not hold. -/
theorem sequential_leaked_session_counterexample :
    (generate_sequential demoCagFailing "x" ⟨none, 0⟩).1 =
      Except.error GenError.promptFailure ∧
    Event.create 0 ∈ (generate_sequential demoCagFailing "x" ⟨none, 0⟩).2.1 ∧
    Event.release 0 ∉ (generate_sequential demoCagFailing "x" ⟨none, 0⟩).2.1 :=
  ⟨rfl, by decide, by decide⟩

/-- C7 (amended): in recursive mode the release discipline is as claimed —
every session created during the chunk loop is released before the loop
finishes, and every session created during a whole `generate_recursive` call
is released before the call returns.  In sequential mode it is not: a chunk
whose prompt-send fails terminates the call with that session created but not
released (its trace ends at the `promptSent` event), so release is guaranteed
only on each chunk's success path. -/
theorem session_release_paths :
    (∀ (tpl : String) (model : String → Option String) (chunks : List String)
        (st : SessState) (sid : Nat),
      Event.create sid ∈ (recChunkLoop tpl model chunks st).2.1 →
      Event.release sid ∈ (recChunkLoop tpl model chunks st).2.1)
    ∧ (∀ (cag : CAG) (fuel : Nat) (input : String) (iter : Nat) (st : SessState)
        (r : Except GenError String) (tr : List Event) (stF : SessState),
      generate_recursive cag fuel input iter st = some (r, tr, stF) →
      ∀ sid, Event.create sid ∈ tr → Event.release sid ∈ tr)
    ∧ (∀ (tpl : String) (model : String → Option String) (c : String)
        (rest : List String) (st : SessState),
      model (prepare_prompt tpl c) = none →
      (seqChunkLoop tpl model (c :: rest) st).1 = Except.error GenError.promptFailure ∧
      (seqChunkLoop tpl model (c :: rest) st).2.1 =
        [Event.create st.nextId, Event.promptSent st.nextId (prepare_prompt tpl c)]) := by
  refine ⟨recChunkLoop_create_release,
    fun cag fuel input iter st r tr stF h =>
      generate_recursive_create_release cag fuel input iter st r tr stF h,
    fun tpl model c rest st hfail => ?_⟩
  rw [seqChunkLoop_cons_fail tpl model c rest st hfail]
  exact ⟨rfl, rfl⟩

/-- Witness for C7's amended theorem: a recursive run on `demoCag` in which
the session created with id 0 is indeed released, and a failing sequential
chunk whose trace stops before any release. -/
theorem session_release_paths_witness :
    Event.release 0 ∈
      (recChunkLoop "\x7btext\x7d" (fun p => some p) ["a"] ⟨none, 0⟩).2.1 ∧
    (seqChunkLoop "\x7btext\x7d" (fun _ => none) ["a"] ⟨none, 0⟩).2.1 =
      [Event.create 0, Event.promptSent 0 "a"] := by
  constructor
  · exact session_release_paths.1 "\x7btext\x7d" (fun p => some p) ["a"]
      ⟨none, 0⟩ 0 (by decide)
  · have h := (session_release_paths.2.2 "\x7btext\x7d" (fun _ => none) "a" []
      ⟨none, 0⟩ rfl).2
    rw [h]
    decide

theorem seqChunkLoop_ai_stays_some (tpl : String) (model : String → Option String) :
    ∀ (chunks : List String) (st : SessState) (sid0 : Nat), st.ai = some sid0 →
      ∃ sid, ((seqChunkLoop tpl model chunks st).2.2).ai = some sid := by
  intro chunks
  induction chunks with
  | nil => intro st sid0 h; exact ⟨sid0, by rw [seqChunkLoop_nil]; exact h⟩
  | cons c rest ih =>
    intro st sid0 h
    cases hm : model (prepare_prompt tpl c) with
    | some r =>
      rw [seqChunkLoop_cons_ok tpl model c rest st r hm]
      exact ih ⟨some st.nextId, st.nextId + 1⟩ st.nextId rfl
    | none =>
      rw [seqChunkLoop_cons_fail tpl model c rest st hm]
      exact ⟨st.nextId, rfl⟩

theorem seqChunkLoop_final_ai_some (tpl : String) (model : String → Option String)
    (c : String) (rest : List String) (st : SessState) :
    ∃ sid, ((seqChunkLoop tpl model (c :: rest) st).2.2).ai = some sid := by
  cases hm : model (prepare_prompt tpl c) with
  | some r =>
    rw [seqChunkLoop_cons_ok tpl model c rest st r hm]
    exact seqChunkLoop_ai_stays_some tpl model rest ⟨some st.nextId, st.nextId + 1⟩
      st.nextId rfl
  | none =>
    rw [seqChunkLoop_cons_fail tpl model c rest st hm]
    exact ⟨st.nextId, rfl⟩

theorem seqChunkLoop_stale_after_success (tpl : String) (model : String → Option String)
    (resp : String → String) :
    ∀ (chunks : List String) (st : SessState), chunks ≠ [] →
      (∀ c ∈ chunks, model (prepare_prompt tpl c) = some (resp c)) →
      ∃ sid, ((seqChunkLoop tpl model chunks st).2.2).ai = some sid ∧
        Event.release sid ∈ (seqChunkLoop tpl model chunks st).2.1 := by
  intro chunks
  induction chunks with
  | nil => intro st h; exact absurd rfl h
  | cons c rest ih =>
    intro st _ hall
    have hc : model (prepare_prompt tpl c) = some (resp c) :=
      hall c (List.mem_cons_self c rest)
    rw [seqChunkLoop_cons_ok tpl model c rest st (resp c) hc]
    cases rest with
    | nil =>
      refine ⟨st.nextId, ?_, ?_⟩
      · rw [seqChunkLoop_nil]
      · simp
    | cons c2 rest2 =>
      obtain ⟨sid, hai, hmem⟩ := ih ⟨some st.nextId, st.nextId + 1⟩ (by simp)
        (fun x hx => hall x (List.mem_cons_of_mem c hx))
      exact ⟨sid, hai, by simp [hmem]⟩

/-- C9 counterexample: after a fully successful sequential call, the `_ai`
field still holds the released session (id 0): `generate_sequential` never
clears the reference, so a reference to a released session persists past the
end of the call (and, with several chunks, into the processing of the next
chunk). -/
theorem sequential_stale_reference_counterexample :
    ((generate_sequential demoCag "x" ⟨none, 0⟩).2.2).ai = some 0 ∧
    Event.release 0 ∈ (generate_sequential demoCag "x" ⟨none, 0⟩).2.1 ∧
    (generate_sequential demoCag "x" ⟨none, 0⟩).1 = Except.ok "ok" :=
  ⟨rfl, by decide, rfl⟩

/-- C9 (amended): only `generate_recursive` clears the session reference
immediately after release (its chunk loop always finishes with `_ai = null`);
`generate_sequential` never clears it — after any nonempty run the reference
is still set, and after a successful run it still points at a session that
was already released. -/
theorem session_reference_clearing :
    (∀ (tpl : String) (model : String → Option String) (chunks : List String)
        (st : SessState), chunks ≠ [] →
      ((recChunkLoop tpl model chunks st).2.2).ai = none)
    ∧ (∀ (tpl : String) (model : String → Option String) (c : String)
        (rest : List String) (st : SessState),
      ∃ sid, ((seqChunkLoop tpl model (c :: rest) st).2.2).ai = some sid)
    ∧ (∀ (tpl : String) (model : String → Option String) (resp : String → String)
        (chunks : List String) (st : SessState), chunks ≠ [] →
      (∀ c ∈ chunks, model (prepare_prompt tpl c) = some (resp c)) →
      ∃ sid, ((seqChunkLoop tpl model chunks st).2.2).ai = some sid ∧
        Event.release sid ∈ (seqChunkLoop tpl model chunks st).2.1) :=
  ⟨recChunkLoop_final_ai, seqChunkLoop_final_ai_some, seqChunkLoop_stale_after_success⟩

/-- Witness for C9's amended theorem: the recursive loop ends with the
reference cleared; the sequential loop ends with it set to the released
session. -/
theorem session_reference_clearing_witness :
    ((recChunkLoop "\x7btext\x7d" (fun p => some p) ["a"] ⟨none, 0⟩).2.2).ai = none ∧
    ∃ sid, ((seqChunkLoop "\x7btext\x7d" (fun p => some p) ["a"] ⟨none, 0⟩).2.2).ai =
        some sid ∧
      Event.release sid ∈ (seqChunkLoop "\x7btext\x7d" (fun p => some p) ["a"] ⟨none, 0⟩).2.1 :=
  ⟨session_reference_clearing.1 "\x7btext\x7d" (fun p => some p) ["a"] ⟨none, 0⟩
      (by simp),
    session_reference_clearing.2.2 "\x7btext\x7d" (fun p => some p)
      (fun c => prepare_prompt "\x7btext\x7d" c) ["a"] ⟨none, 0⟩ (by simp)
      (by intro c hc; rfl)⟩
